import Mathlib

/-!
Verification development for the manim-agent repository.

The definitions below are a shallow embedding of the TypeScript sources:

* `src/agents/executor/tools/execute-code.ts` — the `execute_code` tool
  (Docker-sandboxed Manim execution with try/catch/finally teardown);
* `src/app/api/v1/messages/route.ts` — the SSE streaming route's tool-call
  argument accumulator and best-effort code decoder;
* `src/components/thread-wrapper.tsx` — the client-side strict-JSON /
  regex-fallback code extractor;
* the video retrieval route (Zod parameter validation, recursive file search,
  path-containment check).

Effectful JavaScript is modelled by explicit environment records that carry the
outcome of each external call (`Except String` for calls that can throw) and by
traces of the side-effecting actions performed, in program order.  A JavaScript
exception escaping a function is modelled as an `Except.error` result of the
embedded function; a caught exception never surfaces that way.
-/

/-- Truthiness of a JavaScript string-or-undefined value: `undefined`, `null`
and the empty string are falsy. -/
def jsTruthy : Option String → Bool
  | some s => decide (s ≠ "")
  | none => false

/-- JavaScript `a || d` for a string-or-undefined `a` and a string default. -/
def jsStrOrD (a : Option String) (d : String) : String :=
  match a with
  | some s => if s = "" then d else s
  | none => d

/-- JavaScript `a || d` for a number-or-undefined `a`: `undefined` and `0` are
falsy. -/
def jsOrNat (a : Option Nat) (d : Nat) : Nat :=
  match a with
  | none => d
  | some n => if n = 0 then d else n

/- A directory tree as enumerated by readdir with file types: entries in
enumeration order, each a plain file or a subdirectory. -/
mutual
inductive FsEntry where
  | file : String → FsEntry
  | dir : String → FsForest → FsEntry

inductive FsForest where
  | nil : FsForest
  | cons : FsEntry → FsForest → FsForest
end

/- Depth-first search in enumeration order for the first file whose name
satisfies p, returning its full joined path.  Mirrors the recursive
findVideoFile helper used both by the tool and by the video route
(directories are recursed into first-to-last; files are tested in order). -/
mutual
def findEntry (p : String → Bool) (pre : String) : FsEntry → Option String
  | FsEntry.file n => if p n then some (pre ++ "/" ++ n) else none
  | FsEntry.dir n es => findForest p (pre ++ "/" ++ n) es

def findForest (p : String → Bool) (pre : String) : FsForest → Option String
  | FsForest.nil => none
  | FsForest.cons e rest =>
    match findEntry p pre e with
    | some found => some found
    | none => findForest p pre rest
end

/-- Character-level model of JavaScript `s.startsWith(prefix)`. -/
def jsStartsWith (s pre : String) : Bool := pre.data.isPrefixOf s.data

/-- Character-level model of JavaScript `name.endsWith(".mp4")`. -/
def isMp4Name (n : String) : Bool := ".mp4".data.isSuffixOf n.data

/-- JavaScript regex word character, `\w`. -/
def isWordChar (c : Char) : Bool := c.isAlphanum || c = '_'

/-- JavaScript regex whitespace, `\s` (ASCII portion). -/
def isSpaceChar (c : Char) : Bool :=
  c = ' ' || c = '\t' || c = '\n' || c = '\r' || c = '\x0b' || c = '\x0c'

/-- Attempt to match the regex `class\s+(\w+)\s*\(` at the start of `l`,
returning the captured `\w+` group. -/
def matchClassAt (l : List Char) : Option String :=
  match l with
  | 'c' :: 'l' :: 'a' :: 's' :: 's' :: rest =>
    match rest with
    | [] => none
    | c :: rest2 =>
      if isSpaceChar c then
        let afterSpaces := rest2.dropWhile isSpaceChar
        let word := afterSpaces.takeWhile isWordChar
        if word = [] then none
        else
          match (afterSpaces.dropWhile isWordChar).dropWhile isSpaceChar with
          | '(' :: _ => some (String.mk word)
          | _ => none
      else none
  | _ => none

/-- First match of `code.match(/class\s+(\w+)\s*\(/)`: the regex engine tries
every start position left to right. -/
def findClassMatch : List Char → Option String
  | [] => none
  | c :: rest =>
    match matchClassAt (c :: rest) with
    | some w => some w
    | none => findClassMatch rest

/-- Source line `const sceneClassName = classMatch ? classMatch[1] : "Scene";`. -/
def sceneClassName (code : String) : String :=
  match findClassMatch code.data with
  | some w => w
  | none => "Scene"

/-- The `Cmd` passed to `containerCreate`:
`["manim", "-pql", codeFileName, sceneClassName]`. -/
def manimCmd (code : String) : List String :=
  ["manim", "-pql", "scene.py", sceneClassName code]

/-- A LangChain `ToolMessage` restricted to the fields the tool populates. -/
structure ToolMessage where
  content : String
  tool_call_id : String
deriving DecidableEq, Repr

/-- The environment of one `executeCodeTool` invocation: the outcomes of every
external call it makes, in program order.  `Except.error e` means the
corresponding `await` rejects with an error whose message is `e`. -/
structure ExecEnv where
  /-- Outcome of `DockerClient.fromDockerConfig()` (line 24, before the `try`). -/
  dockerConnect : Except String Unit
  /-- Value of `config.toolCall?.id`. -/
  toolCallId : Option String
  /-- The `code` tool input. -/
  code : String
  /-- The generated `executionId` UUID. -/
  executionId : String
  /-- Value of `process.cwd()`. -/
  cwd : String
  /-- Outcome of `mkdir(workDir, { recursive: true })`. -/
  mkdirResult : Except String Unit
  /-- Outcome of `writeFile(codeFilePath, code, "utf-8")`. -/
  writeResult : Except String Unit
  /-- Outcome of `docker.containerCreate(...)`: the new container id. -/
  createResult : Except String String
  /-- Outcome of `docker.containerStart(containerId)`. -/
  startResult : Except String Unit
  /-- Outcome of `docker.containerWait(containerId)`: the optional
  `StatusCode` field of the wait response. -/
  waitStatusCode : Except String (Option Nat)
  /-- Outcome of `docker.containerLogs(...)`: the combined log text. -/
  logsResult : Except String String
  /-- The directory tree under `workDir/media/videos`, or `none` when the
  `access(mediaDir)` / `readdir` calls throw (directory absent). -/
  mediaTree : Option FsForest
  /-- Outcome of `docker.containerStop(containerId)` in the `finally` block. -/
  stopResult : Except String Unit
  /-- Outcome of `docker.containerDelete(containerId, { force: true })`. -/
  removeResult : Except String Unit
  /-- Outcome of `docker.close()`. -/
  closeResult : Except String Unit

/-- The side-effecting Docker / filesystem actions of one invocation. -/
inductive DockerAction where
  | mkdirDir (path : String)
  | writeCodeFile (path : String) (content : String)
  | createContainer (image : String) (cmd : List String) (binds : List String)
      (workingDir : String)
  | startContainer (cid : String)
  | waitContainer (cid : String)
  | containerLogs (cid : String)
  | stopContainer (cid : String)
  | removeContainer (cid : String)
  | closeClient
deriving DecidableEq, Repr

/-- Path `workDir = join(process.cwd(), "tmp", "manim-executions", executionId)`. -/
def workDir (env : ExecEnv) : String :=
  env.cwd ++ "/tmp/manim-executions/" ++ env.executionId

/-- Model of `videoPath.split("/").pop() || "output.mp4"`: the text after the last
slash, with the JS falsy-default applied. -/
def lastSlashSegment (s : String) : String :=
  String.mk (s.data.foldl (fun acc c => if c = '/' then [] else acc ++ [c]) [])

def jsVideoFileName (videoPath : String) : String :=
  let seg := lastSlashSegment videoPath
  if seg = "" then "output.mp4" else seg

/-- The recursive `.mp4` search of the tool: `access(mediaDir)` guarded by the
inner `try` (a throw leaves `videoPath` undefined), then `findVideoFile`. -/
def toolVideoPath (env : ExecEnv) : Option String :=
  match env.mediaTree with
  | none => none
  | some t => findForest isMp4Name (workDir env ++ "/media/videos") t

/-- The `try` block of `executeCodeTool` (lines 28–188): the trace of actions
performed, the container id if one was assigned, and either the returned
success `ToolMessage` or the message of the exception that was thrown. -/
def runTry (env : ExecEnv) : List DockerAction × Option String × Except String ToolMessage :=
  match env.toolCallId with
  | none => ([], none, Except.error "Tool call not found")
  | some tcid =>
    let wd := workDir env
    let t0 := [DockerAction.mkdirDir wd]
    match env.mkdirResult with
    | Except.error e => (t0, none, Except.error e)
    | Except.ok _ =>
      let t1 := t0 ++ [DockerAction.writeCodeFile (wd ++ "/scene.py") env.code]
      match env.writeResult with
      | Except.error e => (t1, none, Except.error e)
      | Except.ok _ =>
        let t2 := t1 ++ [DockerAction.createContainer "manimcommunity/manim:stable"
          (manimCmd env.code) [wd ++ ":/manim"] "/manim"]
        match env.createResult with
        | Except.error e => (t2, none, Except.error e)
        | Except.ok cid =>
          let t3 := t2 ++ [DockerAction.startContainer cid]
          match env.startResult with
          | Except.error e => (t3, some cid, Except.error e)
          | Except.ok _ =>
            let t4 := t3 ++ [DockerAction.waitContainer cid]
            match env.waitStatusCode with
            | Except.error e => (t4, some cid, Except.error e)
            | Except.ok statusCode =>
              let exitCode := jsOrNat statusCode 0
              let t5 := t4 ++ [DockerAction.containerLogs cid]
              match env.logsResult with
              | Except.error e => (t5, some cid, Except.error e)
              | Except.ok logOutput =>
                if exitCode ≠ 0 then
                  (t5, some cid, Except.error ("Manim execution failed with exit code "
                    ++ toString exitCode ++ ". Logs: " ++ logOutput))
                else
                  match toolVideoPath env with
                  | none => (t5, some cid, Except.error
                      ("Video file not found after execution. Logs: " ++ logOutput))
                  | some videoPath =>
                    let videoUrl := "/api/videos/" ++ env.executionId ++ "/"
                      ++ jsVideoFileName videoPath
                    (t5, some cid, Except.ok
                      { content := "Manim code executed successfully. Video URL: "
                          ++ videoUrl ++ "\n\nLogs:\n" ++ logOutput,
                        tool_call_id := tcid })

/-- The `catch` clause (lines 189–209): any exception from the `try` block is
converted into an error `ToolMessage`; a success message passes through. -/
def toolResultMessage (env : ExecEnv) : ToolMessage :=
  match (runTry env).2.2 with
  | Except.ok m => m
  | Except.error e =>
    { content := "Error executing Manim code: " ++ e
        ++ "\n\nPlease review the code and fix any issues.",
      tool_call_id := jsStrOrD env.toolCallId "" }

/-- The `finally` block (lines 210–243): if a container id was assigned, stop
it (rejection swallowed by `.catch`) and delete it, then close the client.
Every operation is attempted exactly once; all rejections are caught. -/
def teardownActions (env : ExecEnv) : List DockerAction :=
  (match (runTry env).2.1 with
   | some cid => [DockerAction.stopContainer cid, DockerAction.removeContainer cid]
   | none => []) ++ [DockerAction.closeClient]

/-- The `console.error` diagnostics the `finally` block can print.  A rejected
`containerDelete` or `close` is logged and otherwise ignored. -/
def teardownLogs (env : ExecEnv) : List String :=
  (match (runTry env).2.1, env.removeResult with
   | some _, Except.error e => ["Error cleaning up container: " ++ e]
   | _, _ => []) ++
  (match env.closeResult with
   | Except.error e => ["Error closing Docker client: " ++ e]
   | _ => [])

/-- Everything one invocation of the tool produces. -/
structure ExecOutcome where
  trace : List DockerAction
  cleanupLogs : List String
  message : ToolMessage
deriving DecidableEq, Repr

/-- The whole tool function.  `DockerClient.fromDockerConfig()` is awaited on
line 24, before the `try`/`catch`/`finally` statement, so its rejection
escapes the tool as an exception (modelled as `Except.error`); every later
failure is converted by the `catch` clause into a normal result. -/
def executeCodeTool (env : ExecEnv) : Except String ExecOutcome :=
  match env.dockerConnect with
  | Except.error e => Except.error e
  | Except.ok _ =>
    Except.ok
      { trace := (runTry env).1 ++ teardownActions env,
        cleanupLogs := teardownLogs env,
        message := toolResultMessage env }

/-- Actions belonging to the `finally` teardown. -/
def isTeardownAct : DockerAction → Bool
  | DockerAction.stopContainer _ => true
  | DockerAction.removeContainer _ => true
  | DockerAction.closeClient => true
  | _ => false

/-- Container-creation actions. -/
def isCreateAct : DockerAction → Bool
  | DockerAction.createContainer _ _ _ _ => true
  | _ => false

/-!
Streaming route decoder (`src/app/api/v1/messages/route.ts`, lines 233–299):
per-key accumulation of tool-call argument fragments, best-effort decode of the
growing buffer, and deduplicated `code` SSE events.  The external
`best-effort-json-parser` collaborator is abstracted as a function
`dec : String → Option String` returning the parsed object's string-typed
`code` field when the checks on lines 278–280 pass (`none` covers a parse
throw, a non-object result, a missing `code` key and a non-string `code`).
-/

/-- One element of `tool_call_chunks`. -/
structure Chunk where
  id : Option String
  name : Option String
  args : Option String
  index : Option Nat

/-- The SSE events the chunk loop can publish, in order. -/
inductive SseEvent where
  | argDelta (toolCallId : String) (toolName : String) (argName : String) (value : String)
  | codeEvent (code : String) (toolCallId : String)
deriving DecidableEq, Repr

/-- Pointwise update of a total map with a `String` key. -/
def updS {β : Type} (f : String → β) (k : String) (v : β) : String → β :=
  fun k2 => if k2 = k then v else f k2

/-- Pointwise update of a total map with a `Nat` key. -/
def updN {β : Type} (f : Nat → β) (k : Nat) (v : β) : Nat → β :=
  fun k2 => if k2 = k then v else f k2

/-- The four `Map`s the route keeps across chunks.  `toolArgsBufferByKey` is
total with default `""`, matching `map.get(key) || ''`. -/
structure StreamState where
  argsBuffer : String → String
  lastCode : String → Option String
  nameByIndex : Nat → Option String
  idByIndex : Nat → Option String

/-- State at the start of the `for await` loop: all maps empty. -/
def initStreamState : StreamState :=
  { argsBuffer := fun _ => "",
    lastCode := fun _ => none,
    nameByIndex := fun _ => none,
    idByIndex := fun _ => none }

/-- Lines 251: `if (toolCallChunk.name) toolNameByIndex.set(chunkIndex, toolCallChunk.name)`. -/
def resolvedNames (st : StreamState) (ch : Chunk) : Nat → Option String :=
  if jsTruthy ch.name then updN st.nameByIndex (ch.index.getD 0) ch.name
  else st.nameByIndex

/-- Lines 252: `if (toolCallChunk.id) toolIdByIndex.set(chunkIndex, toolCallChunk.id)`. -/
def resolvedIds (st : StreamState) (ch : Chunk) : Nat → Option String :=
  if jsTruthy ch.id then updN st.idByIndex (ch.index.getD 0) ch.id
  else st.idByIndex

/-- Identity resolution, lines 254–257: recorded id for the position index,
else the chunk's own id, else the synthetic index key (JS falsy chain). -/
def stableKey (st : StreamState) (ch : Chunk) : String :=
  jsStrOrD (resolvedIds st ch (ch.index.getD 0))
    (jsStrOrD ch.id ("index:" ++ toString (ch.index.getD 0)))

/-- The body of `for (const toolCallChunk of messageWithChunks.tool_call_chunks)`:
returns the updated state and the SSE events published for this chunk, in
publication order. -/
def processChunk (dec : String → Option String) (st : StreamState) (ch : Chunk) :
    StreamState × List SseEvent :=
  let names := resolvedNames st ch
  let ids := resolvedIds st ch
  let key := stableKey st ch
  if names (ch.index.getD 0) = some "execute_code" ∧ jsTruthy ch.args then
    let args := ch.args.getD ""
    let delta := SseEvent.argDelta key "execute_code" "code" args
    let next := st.argsBuffer key ++ args
    let buf := updS st.argsBuffer key next
    match dec next with
    | some c =>
      if c ≠ "" ∧ st.lastCode key ≠ some c then
        ({ argsBuffer := buf,
           lastCode := updS st.lastCode key (some c),
           nameByIndex := names, idByIndex := ids },
         [delta, SseEvent.codeEvent c key])
      else
        ({ argsBuffer := buf, lastCode := st.lastCode,
           nameByIndex := names, idByIndex := ids }, [delta])
    | none =>
      ({ argsBuffer := buf, lastCode := st.lastCode,
         nameByIndex := names, idByIndex := ids }, [delta])
  else
    ({ argsBuffer := st.argsBuffer, lastCode := st.lastCode,
       nameByIndex := names, idByIndex := ids }, [])

/-- Folding `processChunk` over a chunk sequence, concatenating the events. -/
def processChunks (dec : String → Option String) :
    StreamState → List Chunk → StreamState × List SseEvent
  | st, [] => (st, [])
  | st, ch :: rest =>
    let step := processChunk dec st ch
    let restRun := processChunks dec step.1 rest
    (restRun.1, step.2 ++ restRun.2)

/-- A fragment stream for one fixed call identity `k`: every chunk carries the
tool name, the explicit id `k` and position index 0, as in scenario D of the
spec where identity arrives on the first fragment (re-sending it on each
fragment is harmless: the `toolIdByIndex` entry is simply rewritten). -/
def mkChunk (k frag : String) : Chunk :=
  { id := some k, name := some "execute_code", args := some frag, index := some 0 }

def mkChunks (k : String) (frags : List String) : List Chunk :=
  frags.map (mkChunk k)

/-- Concatenation of a fragment partition. -/
def strConcat : List String → String
  | [] => ""
  | s :: rest => s ++ strConcat rest

/-!
Client-side decode of the accumulated args buffer
(`src/components/thread-wrapper.tsx`, lines 121–163): strict `JSON.parse`
first; on a parse exception, a regex fallback that extracts the `code` field
and reverses the standard escape sequences with five chained global
`String.replace` calls.
-/

/-- Hex digit characters as produced by `JSON.stringify` unicode escapes. -/
def hexDigit (n : Nat) : Char :=
  match n with
  | 0 => '0' | 1 => '1' | 2 => '2' | 3 => '3' | 4 => '4' | 5 => '5' | 6 => '6' | 7 => '7'
  | 8 => '8' | 9 => '9' | 10 => 'a' | 11 => 'b' | 12 => 'c' | 13 => 'd' | 14 => 'e' | _ => 'f'

/-- Value of a hex digit, accepting both cases as `JSON.parse` does. -/
def hexVal (c : Char) : Option Nat :=
  if '0' ≤ c ∧ c ≤ '9' then some (c.toNat - 48)
  else if 'a' ≤ c ∧ c ≤ 'f' then some (c.toNat - 87)
  else if 'A' ≤ c ∧ c ≤ 'F' then some (c.toNat - 55)
  else none

/-- How `JSON.stringify` escapes one character inside a string literal:
quote, backslash and the named control characters get two-character escapes,
all other control characters get a lowercase unicode escape, everything else
is emitted verbatim. -/
def escapeCharL (c : Char) : List Char :=
  if c = '"' then ['\\', '"']
  else if c = '\\' then ['\\', '\\']
  else if c = '\n' then ['\\', 'n']
  else if c = '\r' then ['\\', 'r']
  else if c = '\t' then ['\\', 't']
  else if c = '\x08' then ['\\', 'b']
  else if c = '\x0c' then ['\\', 'f']
  else if c.toNat < 32 then ['\\', 'u', '0', '0', hexDigit (c.toNat / 16), hexDigit (c.toNat % 16)]
  else [c]

/-- The escaped body of a `JSON.stringify` string literal. -/
def encodeBody : List Char → List Char
  | [] => []
  | c :: cs => escapeCharL c ++ encodeBody cs

/-- The complete buffer holding `JSON.stringify({ code: s })`, which is
exactly an opening brace, the quoted key `code`, a colon, the escaped string
and a closing brace, with no whitespace. -/
def encodeCodeJson (s : String) : String :=
  String.mk ('\x7b' :: '"' :: 'c' :: 'o' :: 'd' :: 'e' :: '"' :: ':' :: '"' ::
    (encodeBody s.data ++ ['"', '\x7d']))

/-- JSON string-literal body parser, as `JSON.parse` reads it after the
opening quote: literal characters (raw control characters are rejected), the
named escapes, `\/` and four-hex-digit unicode escapes; returns the decoded
characters and the input following the closing quote. -/
def parseStringBody : List Char → Option (List Char × List Char)
  | [] => none
  | c :: rest =>
    if c = '"' then some ([], rest)
    else if c = '\\' then
      match rest with
      | [] => none
      | e :: rest2 =>
        if e = '"' then (parseStringBody rest2).map (fun pr => ('"' :: pr.1, pr.2))
        else if e = '\\' then (parseStringBody rest2).map (fun pr => ('\\' :: pr.1, pr.2))
        else if e = '/' then (parseStringBody rest2).map (fun pr => ('/' :: pr.1, pr.2))
        else if e = 'n' then (parseStringBody rest2).map (fun pr => ('\n' :: pr.1, pr.2))
        else if e = 't' then (parseStringBody rest2).map (fun pr => ('\t' :: pr.1, pr.2))
        else if e = 'r' then (parseStringBody rest2).map (fun pr => ('\r' :: pr.1, pr.2))
        else if e = 'b' then (parseStringBody rest2).map (fun pr => ('\x08' :: pr.1, pr.2))
        else if e = 'f' then (parseStringBody rest2).map (fun pr => ('\x0c' :: pr.1, pr.2))
        else if e = 'u' then
          match rest2 with
          | a :: b :: c2 :: d :: rest3 =>
            match hexVal a, hexVal b, hexVal c2, hexVal d with
            | some va, some vb, some vc, some vd =>
              (parseStringBody rest3).map
                (fun pr => (Char.ofNat (4096 * va + 256 * vb + 16 * vc + vd) :: pr.1, pr.2))
            | _, _, _, _ => none
          | _ => none
        else none
    else if c.toNat < 32 then none
    else (parseStringBody rest).map (fun pr => (c :: pr.1, pr.2))

/-- JSON whitespace. -/
def isJsonWs (c : Char) : Bool := c = ' ' || c = '\t' || c = '\n' || c = '\r'

def skipWs (l : List Char) : List Char := l.dropWhile isJsonWs

/-- The strict path of the client decoder: `JSON.parse(buffer)` followed by
the shape checks of lines 124–125, restricted to the single-field object
grammar those checks accept — an object whose sole key decodes to `code` and
whose value is a string literal.  Returns the value on success; `none` models
both a `JSON.parse` exception and a shape-check failure. -/
def parseCodeObject (buf : String) : Option String :=
  match skipWs buf.data with
  | '\x7b' :: r1 =>
    match skipWs r1 with
    | '"' :: r2 =>
      match parseStringBody r2 with
      | some (key, r3) =>
        if String.mk key = "code" then
          match skipWs r3 with
          | ':' :: r4 =>
            match skipWs r4 with
            | '"' :: r5 =>
              match parseStringBody r5 with
              | some (val, r6) =>
                match skipWs r6 with
                | '\x7d' :: r7 => if skipWs r7 = [] then some (String.mk val) else none
                | _ => none
              | none => none
            | _ => none
          | _ => none
        else none
      | none => none
    | _ => none
  | _ => none

/-- Greedy capture of `((?:[^"\\]|\\.)*)`: escape pairs are kept verbatim,
any other character except the quote is kept, the quote (or the end of input,
or a trailing lone backslash) stops the capture. -/
def captureBody : List Char → List Char
  | [] => []
  | '\\' :: e :: rest => '\\' :: e :: captureBody rest
  | '\\' :: [] => []
  | c :: rest => if c = '"' then [] else c :: captureBody rest

/-- Attempt to match `"code"\s*:\s*"((?:[^"\\]|\\.)*)"?` at the start of the
input.  The trailing optional quote never affects the capture, so this same
matcher also models the second, partial-JSON regex of lines 148–149, whose
only difference is dropping that optional quote. -/
def matchCodeRegexAt : List Char → Option (List Char)
  | '"' :: 'c' :: 'o' :: 'd' :: 'e' :: '"' :: r =>
    match r.dropWhile isSpaceChar with
    | ':' :: r2 =>
      match r2.dropWhile isSpaceChar with
      | '"' :: r3 => some (captureBody r3)
      | _ => none
    | _ => none
  | _ => none

/-- First regex match over the whole buffer, as `String.prototype.match`
scans start positions left to right. -/
def findCodeCapture : List Char → Option (List Char)
  | [] => none
  | c :: rest =>
    match matchCodeRegexAt (c :: rest) with
    | some cap => some cap
    | none => findCodeCapture rest

/-- Replace-all loop: scan left to right, on a match emit the replacement and
skip past the matched text without rescanning the replacement, as the
JavaScript global-regex `String.replace` does.  The `Nat` argument counts
characters still to skip after a match. -/
def replLoop (pat rep : List Char) : Nat → List Char → List Char
  | 0, [] => []
  | 0, c :: rest =>
    if pat.isPrefixOf (c :: rest) then rep ++ replLoop pat rep (pat.length - 1) rest
    else c :: replLoop pat rep 0 rest
  | _ + 1, [] => []
  | k + 1, _ :: rest => replLoop pat rep k rest

def replaceAllL (pat rep l : List Char) : List Char := replLoop pat rep 0 l

/-- The five chained replacements of lines 135–140 (and identically 150–155),
in source order: backslash-n, backslash-quote, double backslash,
backslash-t, backslash-r. -/
def unescapeTolerant (l : List Char) : List Char :=
  replaceAllL ['\\', 'r'] ['\x0d']
    (replaceAllL ['\\', 't'] ['\t']
      (replaceAllL ['\\', '\\'] ['\\']
        (replaceAllL ['\\', '"'] ['"']
          (replaceAllL ['\\', 'n'] ['\n'] l))))

/-- The regex-fallback path of the client decoder, reached when `JSON.parse`
throws: match the code regex, require a non-empty capture (an empty capture
is falsy, and the partial-JSON regex then captures the same empty text), then
reverse the escapes and require a non-empty result. -/
def tolerantExtract (buf : String) : Option String :=
  match findCodeCapture buf.data with
  | none => none
  | some cap =>
    if cap = [] then none
    else
      let decoded := unescapeTolerant cap
      if decoded = [] then none else some (String.mk decoded)

/-!
Video retrieval route (`videoParamsSchema` and `GET`): Zod validation of the
execution id and filename, recursive search for the exact filename under the
execution's `media/videos` subtree, and the normalized-path containment check
before the file is read.
-/

/-- Zod: `min(1)` and `regex(/^[a-zA-Z0-9_-]+$/)`. -/
def validExecutionId (s : String) : Bool :=
  decide (s ≠ "") && s.data.all (fun c => c.isAlphanum || c = '_' || c = '-')

/-- Zod: `min(1)`, `regex(/^[a-zA-Z0-9_.-]+$/)` and `endsWith(".mp4")`. -/
def validFilename (s : String) : Bool :=
  decide (s ≠ "") && s.data.all (fun c => c.isAlphanum || c = '_' || c = '.' || c = '-')
    && ".mp4".data.isSuffixOf s.data

/-- Filesystem accesses of the video route. -/
inductive VideoAct where
  | existsCheck (path : String)
  | searchDir (path : String)
  | readVideoFile (path : String)
deriving DecidableEq, Repr

/-- Environment of one video `GET`: route params, whether the execution
directory exists, the tree under `media/videos` (none when inaccessible) and
the behaviour of `path.resolve` on this filesystem. -/
structure VideoWorld where
  executionId : String
  filename : String
  cwd : String
  execDirExists : Bool
  mediaTree : Option FsForest
  resolve : String → String

def videoExecutionDir (w : VideoWorld) : String :=
  w.cwd ++ "/tmp/manim-executions/" ++ w.executionId

def videoMediaDir (w : VideoWorld) : String :=
  videoExecutionDir w ++ "/media/videos"

/-- The video route `GET` handler: HTTP status plus the filesystem accesses
it performed, in order.  Validation runs before any filesystem access; the
containment check compares the resolved found path against the resolved
execution directory and answers 403 without reading the file. -/
def videoGET (w : VideoWorld) : Nat × List VideoAct :=
  if ¬ (validExecutionId w.executionId ∧ validFilename w.filename) then (400, [])
  else
    let execDir := videoExecutionDir w
    let tr0 := [VideoAct.existsCheck execDir]
    if ¬ w.execDirExists then (404, tr0)
    else
      let tr1 := tr0 ++ [VideoAct.searchDir (videoMediaDir w)]
      match w.mediaTree with
      | none => (404, tr1)
      | some t =>
        match findForest (fun n => decide (n = w.filename)) (videoMediaDir w) t with
        | none => (404, tr1)
        | some videoPath =>
          if jsStartsWith (w.resolve videoPath) (w.resolve execDir) then
            (200, tr1 ++ [VideoAct.readVideoFile videoPath])
          else (403, tr1)

/-- The complete client decode step: strict parse inside `try`, the regex
fallback inside `catch`.  (`parseCodeObject` returns `none` both for a parse
exception and for a shape-check failure; on the complete buffers considered
in the round-trip theorem the strict parse succeeds, so the distinction does
not matter there.) -/
def threadDecodeCode (buf : String) : Option String :=
  match parseCodeObject buf with
  | some v => some v
  | none => tolerantExtract buf

/-!
Concrete instances used by the witnesses below.
-/

/-- A run where `DockerClient.fromDockerConfig()` rejects. -/
def envConnFail : ExecEnv :=
  { dockerConnect := Except.error "connect ENOENT /var/run/docker.sock",
    toolCallId := some "call-1", code := "print(1)", executionId := "exec-1",
    cwd := "/app", mkdirResult := Except.ok (), writeResult := Except.ok (),
    createResult := Except.ok "cid-1", startResult := Except.ok (),
    waitStatusCode := Except.ok (some 0), logsResult := Except.ok "",
    mediaTree := none, stopResult := Except.ok (), removeResult := Except.ok (),
    closeResult := Except.ok () }

/-- A fully successful run whose wait response carries no `StatusCode` and
whose artifact sits two directories deep. -/
def envHappy : ExecEnv :=
  { dockerConnect := Except.ok (),
    toolCallId := some "call-2",
    code := "from manim import *\nclass DemoScene(Scene):\n    def construct(self):\n        pass\n",
    executionId := "exec-2", cwd := "/app",
    mkdirResult := Except.ok (), writeResult := Except.ok (),
    createResult := Except.ok "cid-2", startResult := Except.ok (),
    waitStatusCode := Except.ok none, logsResult := Except.ok "render ok",
    mediaTree := some (FsForest.cons
      (FsEntry.dir "DemoScene" (FsForest.cons
        (FsEntry.dir "480p15" (FsForest.cons (FsEntry.file "DemoScene.mp4") FsForest.nil))
        FsForest.nil))
      FsForest.nil),
    stopResult := Except.ok (), removeResult := Except.ok (),
    closeResult := Except.ok () }

/-- A run that exits 0 but never produces the `media/videos` directory. -/
def envNoArtifact : ExecEnv :=
  { dockerConnect := Except.ok (),
    toolCallId := some "call-3", code := "print(1)", executionId := "exec-3",
    cwd := "/app", mkdirResult := Except.ok (), writeResult := Except.ok (),
    createResult := Except.ok "cid-3", startResult := Except.ok (),
    waitStatusCode := Except.ok (some 0), logsResult := Except.ok "no scene rendered",
    mediaTree := none, stopResult := Except.ok (),
    removeResult := Except.error "No such container", closeResult := Except.ok () }

/-- A decode function for witnesses: the identity extraction. -/
def decId : String → Option String := fun s => some s

/-- A chunk with no argument fragment. -/
def chunkNoArgs : Chunk := { id := none, name := none, args := none, index := none }

/-- A video request whose filename attempts path traversal. -/
def videoWorldTraversal : VideoWorld :=
  { executionId := "exec-8", filename := "../secret.mp4", cwd := "/app",
    execDirExists := true,
    mediaTree := some (FsForest.cons (FsEntry.file "secret.mp4") FsForest.nil),
    resolve := fun s => s }

/-- A video request where the located path resolves outside the execution
directory (for example through a symbolic link). -/
def videoWorldEscape : VideoWorld :=
  { executionId := "exec-9", filename := "video.mp4", cwd := "/app",
    execDirExists := true,
    mediaTree := some (FsForest.cons (FsEntry.file "video.mp4") FsForest.nil),
    resolve := fun s =>
      if s = "/app/tmp/manim-executions/exec-9" then s else "/elsewhere/" ++ s }

/-!
Helper lemmas.
-/

theorem str_empty_append (s : String) : "" ++ s = s := by
  cases s; rfl

theorem str_append_empty (s : String) : s ++ "" = s := by
  cases s with
  | mk d => exact congrArg String.mk (List.append_nil d)

theorem str_append_assoc (s t u : String) : s ++ t ++ u = s ++ (t ++ u) := by
  cases s with
  | mk d =>
    cases t with
    | mk e =>
      cases u with
      | mk f => exact congrArg String.mk (List.append_assoc d e f)

theorem str_append_eq_empty {s t : String} (h : s ++ t = "") : s = "" ∧ t = "" := by
  cases s with
  | mk d =>
    cases t with
    | mk e =>
      have h2 : d ++ e = [] := congrArg String.data h
      rcases List.append_eq_nil.mp h2 with ⟨h3, h4⟩
      subst h3; subst h4; exact ⟨rfl, rfl⟩

theorem strConcat_eq_empty {fs : List String} (h : strConcat fs = "") :
    ∀ s ∈ fs, s = "" := by
  induction fs with
  | nil => intro s hs; cases hs
  | cons f rest ih =>
    intro s hs
    have h2 : f ++ strConcat rest = "" := h
    rcases str_append_eq_empty h2 with ⟨hf, hrest⟩
    rcases List.mem_cons.mp hs with hs2 | hs2
    · rw [hs2]; exact hf
    · exact ih hrest s hs2

theorem hexVal_hexDigit : ∀ m, m < 16 → hexVal (hexDigit m) = some m := by decide

theorem psb_quote (rest : List Char) : parseStringBody ('"' :: rest) = some ([], rest) := by
  rw [parseStringBody.eq_def]; simp

theorem psb_escape (e r : Char) (he : [e, r] ∈ [['"', '"'], ['\\', '\\'], ['/', '/'],
    ['n', '\n'], ['t', '\t'], ['r', '\r'], ['b', '\x08'], ['f', '\x0c']])
    (l : List Char) :
    parseStringBody ('\\' :: e :: l) = (parseStringBody l).map (fun pr => (r :: pr.1, pr.2)) := by
  rw [parseStringBody.eq_def]
  fin_cases he <;> simp +decide

theorem psb_unicode (a b c d : Char) (va vb vc vd : Nat)
    (ha : hexVal a = some va) (hb : hexVal b = some vb) (hc : hexVal c = some vc)
    (hd : hexVal d = some vd) (l : List Char) :
    parseStringBody ('\\' :: 'u' :: a :: b :: c :: d :: l) =
      (parseStringBody l).map
        (fun pr => (Char.ofNat (4096 * va + 256 * vb + 16 * vc + vd) :: pr.1, pr.2)) := by
  rw [parseStringBody.eq_def]
  simp +decide [ha, hb, hc, hd]

theorem psb_lit (c : Char) (h1 : c ≠ '"') (h2 : c ≠ '\\') (h3 : ¬ c.toNat < 32) (l : List Char) :
    parseStringBody (c :: l) = (parseStringBody l).map (fun pr => (c :: pr.1, pr.2)) := by
  rw [parseStringBody.eq_def]
  simp [h1, h2, h3]

theorem parse_encodeBody (cs : List Char) :
    ∀ rest : List Char, parseStringBody (encodeBody cs ++ '"' :: rest) = some (cs, rest) := by
  induction cs with
  | nil => intro rest; simp [encodeBody, psb_quote]
  | cons c cs ih =>
    intro rest
    by_cases h1 : c = '"'
    · subst h1; simp +decide [encodeBody, escapeCharL, psb_escape '"' '"' (by simp), ih]
    by_cases h2 : c = '\\'
    · subst h2; simp +decide [encodeBody, escapeCharL, psb_escape '\\' '\\' (by simp), ih]
    by_cases h3 : c = '\n'
    · subst h3; simp +decide [encodeBody, escapeCharL, psb_escape 'n' '\n' (by simp), ih]
    by_cases h4 : c = '\r'
    · subst h4; simp +decide [encodeBody, escapeCharL, psb_escape 'r' '\r' (by simp), ih]
    by_cases h5 : c = '\t'
    · subst h5; simp +decide [encodeBody, escapeCharL, psb_escape 't' '\t' (by simp), ih]
    by_cases h6 : c = '\x08'
    · subst h6; simp +decide [encodeBody, escapeCharL, psb_escape 'b' '\x08' (by simp), ih]
    by_cases h7 : c = '\x0c'
    · subst h7; simp +decide [encodeBody, escapeCharL, psb_escape 'f' '\x0c' (by simp), ih]
    by_cases h8 : c.toNat < 32
    · have hdiv : c.toNat / 16 < 16 := by omega
      have hmod : c.toNat % 16 < 16 := by omega
      have h0 : hexVal '0' = some 0 := by decide
      simp [encodeBody, escapeCharL, h1, h2, h3, h4, h5, h6, h7, h8,
        psb_unicode '0' '0' (hexDigit (c.toNat / 16)) (hexDigit (c.toNat % 16)) 0 0
          (c.toNat / 16) (c.toNat % 16) h0 h0 (hexVal_hexDigit _ hdiv) (hexVal_hexDigit _ hmod),
        ih]
      have hn : 16 * (c.toNat / 16) + c.toNat % 16 = c.toNat := by omega
      rw [hn, Char.ofNat_toNat]
    · have h9 : ¬ c.toNat < 32 := h8
      simp [encodeBody, escapeCharL, h1, h2, h3, h4, h5, h6, h7, h9, psb_lit c h1 h2 h9, ih]

/-- C4 (corrected): the strict parse decodes the complete encoding of a
`code` payload back to exactly the original string, for every string; since
the client decoder runs the strict parse first and only falls back on a parse
exception, the complete buffer always decodes to exactly the original string.
(The tolerant fallback alone does not have this property; see the
counterexample.) -/
theorem strict_parse_roundtrip (s : String) :
    parseCodeObject (encodeCodeJson s) = some s ∧
    threadDecodeCode (encodeCodeJson s) = some s := by
  have hstrict : parseCodeObject (encodeCodeJson s) = some s := by
    obtain ⟨d⟩ := s
    have hkey : parseStringBody ('c' :: 'o' :: 'd' :: 'e' :: '"' :: ':' :: '"' ::
        (encodeBody d ++ ['"', '\x7d'])) = some (['c', 'o', 'd', 'e'], ':' :: '"' ::
        (encodeBody d ++ ['"', '\x7d'])) := by
      rw [psb_lit 'c' (by decide) (by decide) (by decide),
          psb_lit 'o' (by decide) (by decide) (by decide),
          psb_lit 'd' (by decide) (by decide) (by decide),
          psb_lit 'e' (by decide) (by decide) (by decide),
          psb_quote]
      rfl
    have hval : parseStringBody (encodeBody d ++ ['"', '\x7d']) = some (d, ['\x7d']) := by
      have hpe := parse_encodeBody d ['\x7d']
      simpa using hpe
    simp +decide [parseCodeObject, encodeCodeJson, skipWs, hkey, hval]
  exact ⟨hstrict, by simp [threadDecodeCode, hstrict]⟩

/-- C4 (counterexample): on the source string consisting of a backslash
followed by the letter n, whose encoding is backslash backslash n, the
regex-fallback escape reversal produces backslash newline instead — the
chained replacements decode the second and third characters as an escape
sequence.  So decoding a complete buffer via the tolerant fallback does not
always yield the original string. -/
theorem tolerant_fallback_not_roundtrip :
    tolerantExtract (encodeCodeJson "\\n") = some "\\\n" ∧
    ¬ tolerantExtract (encodeCodeJson "\\n") = some "\\n" := by
  decide

theorem step_empty (dec : String → Option String) (st : StreamState) (k : String)
    (hk : k ≠ "") :
    processChunk dec st (mkChunk k "") =
      ({ argsBuffer := st.argsBuffer, lastCode := st.lastCode,
         nameByIndex := updN st.nameByIndex 0 (some "execute_code"),
         idByIndex := updN st.idByIndex 0 (some k) }, []) := by
  simp +decide [processChunk, resolvedNames, resolvedIds, stableKey, mkChunk, jsTruthy, hk]

theorem step_argsBuffer (dec : String → Option String) (st : StreamState) (k f : String)
    (hk : k ≠ "") :
    (processChunk dec st (mkChunk k f)).1.argsBuffer k = st.argsBuffer k ++ f := by
  by_cases hf : f = ""
  · subst hf
    rw [step_empty dec st k hk]
    exact (str_append_empty _).symm
  · simp +decide [processChunk, resolvedNames, resolvedIds, stableKey, mkChunk, jsTruthy, jsStrOrD, updN, hk, hf]
    cases hdec : dec (st.argsBuffer k ++ f) with
    | none => simp [hdec, updS]
    | some c =>
      simp only [hdec]
      by_cases hcc : c ≠ "" ∧ st.lastCode k ≠ some c
      · simp [hcc, updS]
      · simp [hcc, updS]

theorem step_lastCode (dec : String → Option String) (st : StreamState) (k f : String)
    (hk : k ≠ "") (hf : f ≠ "") (c : String)
    (hdec : dec (st.argsBuffer k ++ f) = some c) (hc : c ≠ "") :
    (processChunk dec st (mkChunk k f)).1.lastCode k = some c := by
  simp +decide [processChunk, resolvedNames, resolvedIds, stableKey, mkChunk, jsTruthy, jsStrOrD, updN, hk, hf]
  simp only [hdec]
  by_cases hlast : st.lastCode k = some c
  · have hcc : ¬ (c ≠ "" ∧ st.lastCode k ≠ some c) := by
      intro hcc2; exact hcc2.2 hlast
    simp [hcc]
    exact hlast
  · have hcc : c ≠ "" ∧ st.lastCode k ≠ some c := ⟨hc, hlast⟩
    simp [hcc, updS]

theorem run_buffer (dec : String → Option String) (k : String) (hk : k ≠ "") :
    ∀ (fs : List String) (st : StreamState),
      (processChunks dec st (mkChunks k fs)).1.argsBuffer k
        = st.argsBuffer k ++ strConcat fs := by
  intro fs
  induction fs with
  | nil => intro st; simp [mkChunks, processChunks, strConcat, str_append_empty]
  | cons f rest ih =>
    intro st
    simp only [mkChunks, List.map, processChunks]
    have ihs := ih (processChunk dec st (mkChunk k f)).1
    simp only [mkChunks] at ihs
    rw [ihs, step_argsBuffer dec st k f hk, str_append_assoc]
    simp [strConcat]

theorem run_preserved (dec : String → Option String) (k : String) (hk : k ≠ "") :
    ∀ (fs : List String) (st : StreamState), (∀ s ∈ fs, s = "") →
      (processChunks dec st (mkChunks k fs)).1.argsBuffer = st.argsBuffer ∧
      (processChunks dec st (mkChunks k fs)).1.lastCode = st.lastCode := by
  intro fs
  induction fs with
  | nil => intro st _; simp [mkChunks, processChunks]
  | cons f rest ih =>
    intro st hall
    have hf : f = "" := hall f (by simp)
    subst hf
    simp only [mkChunks, List.map, processChunks]
    have ihs := ih (processChunk dec st (mkChunk k "")).1
      (fun s hs => hall s (by simp [hs]))
    simp only [mkChunks] at ihs
    rw [ihs.1, ihs.2, step_empty dec st k hk]
    exact ⟨rfl, rfl⟩

theorem run_lastCode (dec : String → Option String) (k : String) (hk : k ≠ "") :
    ∀ (fs : List String) (st : StreamState) (c : String), strConcat fs ≠ "" →
      dec (st.argsBuffer k ++ strConcat fs) = some c → c ≠ "" →
      (processChunks dec st (mkChunks k fs)).1.lastCode k = some c := by
  intro fs
  induction fs with
  | nil => intro st c hne; exact absurd rfl hne
  | cons f rest ih =>
    intro st c hne hdec hc
    have hcat : strConcat (f :: rest) = f ++ strConcat rest := rfl
    simp only [mkChunks, List.map, processChunks]
    by_cases hrest : strConcat rest = ""
    · have hf : f ≠ "" := by
        intro hf0
        apply hne
        rw [hcat, hf0, hrest, str_append_empty]
      have hdec2 : dec (st.argsBuffer k ++ f) = some c := by
        rw [hcat, hrest, str_append_empty] at hdec
        exact hdec
      have hstep := step_lastCode dec st k f hk hf c hdec2 hc
      have hpres := (run_preserved dec k hk rest (processChunk dec st (mkChunk k f)).1
        (strConcat_eq_empty hrest)).2
      simp only [mkChunks] at hpres
      rw [hpres]
      exact hstep
    · have ihs := ih (processChunk dec st (mkChunk k f)).1 c hrest
      simp only [mkChunks] at ihs
      apply ihs
      · rw [step_argsBuffer dec st k f hk, str_append_assoc, ← hcat]
        exact hdec
      · exact hc

/-- C3: for a fixed call identity, any two fragment partitions with the same
concatenation leave the accumulator with the same final buffer, hence the
same final decoded value; and whenever the decode of the full argument string
is a non-empty value, both runs also record exactly that value as the last
emitted code for the identity. -/
theorem decoder_partition_invariance (dec : String → Option String) (k : String)
    (fs1 fs2 : List String) (hk : k ≠ "") (h : strConcat fs1 = strConcat fs2) :
    (processChunks dec initStreamState (mkChunks k fs1)).1.argsBuffer k =
      (processChunks dec initStreamState (mkChunks k fs2)).1.argsBuffer k ∧
    dec ((processChunks dec initStreamState (mkChunks k fs1)).1.argsBuffer k) =
      dec ((processChunks dec initStreamState (mkChunks k fs2)).1.argsBuffer k) ∧
    (∀ c, strConcat fs1 ≠ "" → dec (strConcat fs1) = some c → c ≠ "" →
      (processChunks dec initStreamState (mkChunks k fs1)).1.lastCode k = some c ∧
      (processChunks dec initStreamState (mkChunks k fs2)).1.lastCode k = some c) := by
  have hb1 := run_buffer dec k hk fs1 initStreamState
  have hb2 := run_buffer dec k hk fs2 initStreamState
  have hinit : initStreamState.argsBuffer k = "" := rfl
  rw [hinit, str_empty_append] at hb1 hb2
  refine ⟨by rw [hb1, hb2, h], by rw [hb1, hb2, h], ?_⟩
  intro c hne hdec hc
  constructor
  · apply run_lastCode dec k hk fs1 initStreamState c hne
    · rw [hinit, str_empty_append]; exact hdec
    · exact hc
  · apply run_lastCode dec k hk fs2 initStreamState c (by rw [← h]; exact hne)
    · rw [hinit, str_empty_append, ← h]; exact hdec
    · exact hc

/-- C3 witness: splitting the final argument string abc as ab+c or as a+bc
gives the same recorded final code value under the identity decode. -/
theorem decoder_partition_invariance_witness :
    (processChunks decId initStreamState (mkChunks "call-1" ["ab", "c"])).1.lastCode "call-1"
      = some "abc" ∧
    (processChunks decId initStreamState (mkChunks "call-1" ["a", "bc"])).1.lastCode "call-1"
      = some "abc" :=
  (decoder_partition_invariance decId "call-1" ["ab", "c"] ["a", "bc"] (by decide)
    (by decide)).2.2 "abc" (by decide) (by decide) (by decide)

/-- C5: the chunk loop publishes a code event only when the decoded value is
non-empty and differs from the last value recorded for that identity (which
it then becomes), and a chunk carrying no argument fragment (absent or empty
`args` is falsy) publishes nothing and leaves the buffers and last-emitted
values untouched. -/
theorem decoder_emission_discipline (dec : String → Option String) (st : StreamState)
    (ch : Chunk) :
    (∀ c tid, SseEvent.codeEvent c tid ∈ (processChunk dec st ch).2 →
      c ≠ "" ∧ st.lastCode tid ≠ some c ∧
      (processChunk dec st ch).1.lastCode tid = some c) ∧
    (jsTruthy ch.args = false →
      (processChunk dec st ch).2 = [] ∧
      (processChunk dec st ch).1.argsBuffer = st.argsBuffer ∧
      (processChunk dec st ch).1.lastCode = st.lastCode) := by
  constructor
  · intro c tid
    simp only [processChunk]
    split
    · split
      · split
        · rename_i hcond hdec hcc
          intro hmem
          simp only [List.mem_cons, List.mem_singleton] at hmem
          rcases hmem with hmem | hmem | hfalse
          · cases hmem
          · cases hmem
            refine ⟨hcc.1, hcc.2, ?_⟩
            simp [updS]
          · cases hfalse
        · intro hmem; simp at hmem
      · intro hmem; simp at hmem
    · intro hmem; simp at hmem
  · intro hargs
    have hcond : ¬ (resolvedNames st ch (ch.index.getD 0) = some "execute_code"
        ∧ jsTruthy ch.args) := by
      intro hcond2
      rw [hargs] at hcond2
      exact Bool.false_ne_true hcond2.2
    simp [processChunk, if_neg hcond]

/-- C5 witness: a chunk with no argument fragment publishes nothing and
preserves the decoder state. -/
theorem decoder_emission_discipline_witness :
    (processChunk decId initStreamState chunkNoArgs).2 = [] ∧
    (processChunk decId initStreamState chunkNoArgs).1.argsBuffer = initStreamState.argsBuffer ∧
    (processChunk decId initStreamState chunkNoArgs).1.lastCode = initStreamState.lastCode :=
  (decoder_emission_discipline decId initStreamState chunkNoArgs).2 (by decide)

/-- C10: for each processed fragment, the published events are either
nothing, a single raw tool-call-arg-delta event, or that delta event followed
by the code event for the same call identity — so a code event is always
preceded, within its fragment, by the fragment's arg-delta event. -/
theorem arg_delta_precedes_code_event (dec : String → Option String) (st : StreamState)
    (ch : Chunk) :
    (processChunk dec st ch).2 = [] ∨
    (∃ tid v, (processChunk dec st ch).2 =
      [SseEvent.argDelta tid "execute_code" "code" v]) ∨
    (∃ tid v c, (processChunk dec st ch).2 =
      [SseEvent.argDelta tid "execute_code" "code" v, SseEvent.codeEvent c tid]) := by
  simp only [processChunk]
  split
  · split
    · split
      · right; right
        exact ⟨_, _, _, rfl⟩
      · right; left
        exact ⟨_, _, rfl⟩
    · right; left
      exact ⟨_, _, rfl⟩
  · left; rfl

theorem runTry_no_teardown (env : ExecEnv) :
    ((runTry env).1).filter isTeardownAct = [] := by
  simp only [runTry]
  repeat' split
  all_goals simp [isTeardownAct]

theorem runTry_create (env : ExecEnv) (tcid : String) (h1 : env.toolCallId = some tcid)
    (h2 : env.mkdirResult = Except.ok ()) (h3 : env.writeResult = Except.ok ()) :
    ((runTry env).1).filter isCreateAct =
      [DockerAction.createContainer "manimcommunity/manim:stable" (manimCmd env.code)
        [workDir env ++ ":/manim"] "/manim"] := by
  simp only [runTry, h1, h2, h3]
  repeat' split
  all_goals simp [isCreateAct]

theorem runTry_teardown_fields (env : ExecEnv) (s r cl : Except String Unit) :
    runTry { env with stopResult := s, removeResult := r, closeResult := cl } = runTry env := rfl

theorem teardownActions_teardown_fields (env : ExecEnv) (s r cl : Except String Unit) :
    teardownActions { env with stopResult := s, removeResult := r, closeResult := cl }
      = teardownActions env := rfl

theorem toolResultMessage_teardown_fields (env : ExecEnv) (s r cl : Except String Unit) :
    toolResultMessage { env with stopResult := s, removeResult := r, closeResult := cl }
      = toolResultMessage env := rfl

/-- C1 (corrected): once the environment-management connection has been
obtained, every exception thrown inside the `try` block — the missing
tool-call id, directory creation, file write, container creation, start,
wait, log collection, the non-zero-exit throw and the missing-artifact throw
— is caught and converted into a normally returned failure `ToolMessage`
carrying the diagnostic.  (The connection setup itself is outside the `try`;
see the counterexample.) -/
theorem executeCodeTool_try_failures_return_result (env : ExecEnv)
    (h : env.dockerConnect = Except.ok ()) (e : String)
    (he : (runTry env).2.2 = Except.error e) :
    executeCodeTool env = Except.ok
      { trace := (runTry env).1 ++ teardownActions env,
        cleanupLogs := teardownLogs env,
        message := { content := "Error executing Manim code: " ++ e
                                 ++ "\n\nPlease review the code and fix any issues.",
                     tool_call_id := jsStrOrD env.toolCallId "" } } := by
  have hmsg : toolResultMessage env =
      { content := "Error executing Manim code: " ++ e
                   ++ "\n\nPlease review the code and fix any issues.",
        tool_call_id := jsStrOrD env.toolCallId "" } := by
    simp [toolResultMessage, he]
  simp [executeCodeTool, h, hmsg]

/-- C1 (counterexample): `DockerClient.fromDockerConfig()` is awaited before
the `try` block, so a failure of the provisioning-connection setup escapes
`execute_code` as an exception instead of becoming a failure result — the
claim does not hold for that step. -/
theorem executeCodeTool_connect_failure_raises :
    executeCodeTool envConnFail = Except.error "connect ENOENT /var/run/docker.sock" := rfl

/-- C1 witness: a run whose container exits 0 with no artifact returns
normally with the diagnostic message. -/
theorem executeCodeTool_try_failures_witness :
    executeCodeTool envNoArtifact = Except.ok
      { trace := (runTry envNoArtifact).1 ++ teardownActions envNoArtifact,
        cleanupLogs := teardownLogs envNoArtifact,
        message := { content := "Error executing Manim code: "
                                 ++ "Video file not found after execution. Logs: no scene rendered"
                                 ++ "\n\nPlease review the code and fix any issues.",
                     tool_call_id := jsStrOrD envNoArtifact.toolCallId "" } } :=
  executeCodeTool_try_failures_return_result envNoArtifact rfl
    "Video file not found after execution. Logs: no scene rendered" rfl

/-- C2: whenever the connection was obtained, the `finally` block contributes
exactly one stop, one delete (when and only when a container id was
assigned) and one client close to the action trace, and the returned message
is unchanged under arbitrary outcomes of the three teardown operations —
teardown failures are caught inside `finally` and never affect the result. -/
theorem executeCodeTool_teardown_exactly_once (env : ExecEnv)
    (h : env.dockerConnect = Except.ok ()) (s r cl : Except String Unit) :
    executeCodeTool env = Except.ok
      { trace := (runTry env).1 ++ teardownActions env,
        cleanupLogs := teardownLogs env,
        message := toolResultMessage env } ∧
    ((runTry env).1 ++ teardownActions env).filter isTeardownAct =
      (match (runTry env).2.1 with
       | some cid => [DockerAction.stopContainer cid, DockerAction.removeContainer cid,
           DockerAction.closeClient]
       | none => [DockerAction.closeClient]) ∧
    executeCodeTool { env with stopResult := s, removeResult := r, closeResult := cl } =
      Except.ok
        { trace := (runTry env).1 ++ teardownActions env,
          cleanupLogs := teardownLogs { env with stopResult := s, removeResult := r,
                                                 closeResult := cl },
          message := toolResultMessage env } := by
  refine ⟨by simp [executeCodeTool, h], ?_, ?_⟩
  · rw [List.filter_append, runTry_no_teardown]
    cases hcid : (runTry env).2.1 <;> simp [teardownActions, hcid, isTeardownAct]
  · rcases env with ⟨dc, tc, cd, eid, cw, mkr, wr, cr, str0, ws, lg, mt, sp, rm, cls⟩
    cases h
    rfl

/-- C2 witness: on a successful run, even when stop, delete and close all
reject, the trace tears the container down exactly once and the message is
the success message. -/
theorem executeCodeTool_teardown_witness :
    executeCodeTool envHappy = Except.ok
      { trace := (runTry envHappy).1 ++ teardownActions envHappy,
        cleanupLogs := teardownLogs envHappy,
        message := toolResultMessage envHappy } ∧
    ((runTry envHappy).1 ++ teardownActions envHappy).filter isTeardownAct =
      [DockerAction.stopContainer "cid-2", DockerAction.removeContainer "cid-2",
       DockerAction.closeClient] ∧
    executeCodeTool { envHappy with stopResult := Except.error "stop failed",
                                    removeResult := Except.error "remove failed",
                                    closeResult := Except.error "close failed" } =
      Except.ok
        { trace := (runTry envHappy).1 ++ teardownActions envHappy,
          cleanupLogs := teardownLogs { envHappy with
                                        stopResult := Except.error "stop failed",
                                        removeResult := Except.error "remove failed",
                                        closeResult := Except.error "close failed" },
          message := toolResultMessage envHappy } :=
  executeCodeTool_teardown_exactly_once envHappy rfl (Except.error "stop failed")
    (Except.error "remove failed") (Except.error "close failed")

/-- C6: a run whose container exits with status 0 but whose working area
holds no file with the `.mp4` extension under `media/videos` (including the
case where that directory was never created) returns a failure result whose
diagnostic is the distinct missing-artifact reason, with no artifact URL,
despite the zero exit status. -/
theorem zero_exit_missing_artifact_fails (env : ExecEnv) (tcid logOutput : String)
    (stc : Option Nat) (cid : String)
    (h : env.dockerConnect = Except.ok ()) (h1 : env.toolCallId = some tcid)
    (h2 : env.mkdirResult = Except.ok ()) (h3 : env.writeResult = Except.ok ())
    (h4 : env.createResult = Except.ok cid) (h5 : env.startResult = Except.ok ())
    (h6 : env.waitStatusCode = Except.ok stc) (h7 : jsOrNat stc 0 = 0)
    (h8 : env.logsResult = Except.ok logOutput) (h9 : toolVideoPath env = none) :
    executeCodeTool env = Except.ok
      { trace := (runTry env).1 ++ teardownActions env,
        cleanupLogs := teardownLogs env,
        message := { content := "Error executing Manim code: "
                                 ++ ("Video file not found after execution. Logs: " ++ logOutput)
                                 ++ "\n\nPlease review the code and fix any issues.",
                     tool_call_id := jsStrOrD env.toolCallId "" } } := by
  have he : (runTry env).2.2 =
      Except.error ("Video file not found after execution. Logs: " ++ logOutput) := by
    simp [runTry, h1, h2, h3, h4, h5, h6, h7, h8, h9]
  have hmsg : toolResultMessage env =
      { content := "Error executing Manim code: "
                   ++ ("Video file not found after execution. Logs: " ++ logOutput)
                   ++ "\n\nPlease review the code and fix any issues.",
        tool_call_id := jsStrOrD env.toolCallId "" } := by
    simp [toolResultMessage, he]
  simp [executeCodeTool, h, hmsg]

/-- C6 witness: exit status 0 with an absent output directory produces the
missing-artifact failure result. -/
theorem zero_exit_missing_artifact_witness :
    executeCodeTool envNoArtifact = Except.ok
      { trace := (runTry envNoArtifact).1 ++ teardownActions envNoArtifact,
        cleanupLogs := teardownLogs envNoArtifact,
        message := { content := "Error executing Manim code: "
                                 ++ ("Video file not found after execution. Logs: "
                                     ++ "no scene rendered")
                                 ++ "\n\nPlease review the code and fix any issues.",
                     tool_call_id := jsStrOrD envNoArtifact.toolCallId "" } } :=
  zero_exit_missing_artifact_fails envNoArtifact "call-3" "no scene rendered" (some 0) "cid-3"
    rfl rfl rfl rfl rfl rfl rfl rfl rfl rfl

/-- C7: whenever the run reaches container creation, the container create
request uses the pinned image, the command consisting of the render tool,
the low-quality preview flags, the fixed source filename and the derived
entry symbol — namely the first `class <name>(` match in the source text or
the default Scene — with the working area bound at the fixed internal path;
and exactly one create request is issued. -/
theorem container_command_shape (env : ExecEnv) (tcid : String)
    (h : env.dockerConnect = Except.ok ()) (h1 : env.toolCallId = some tcid)
    (h2 : env.mkdirResult = Except.ok ()) (h3 : env.writeResult = Except.ok ()) :
    executeCodeTool env = Except.ok
      { trace := (runTry env).1 ++ teardownActions env,
        cleanupLogs := teardownLogs env,
        message := toolResultMessage env } ∧
    ((runTry env).1 ++ teardownActions env).filter isCreateAct =
      [DockerAction.createContainer "manimcommunity/manim:stable"
        ["manim", "-pql", "scene.py", sceneClassName env.code]
        [workDir env ++ ":/manim"] "/manim"] ∧
    ((findClassMatch env.code.data = some (sceneClassName env.code)) ∨
     (findClassMatch env.code.data = none ∧ sceneClassName env.code = "Scene")) := by
  refine ⟨by simp [executeCodeTool, h], ?_, ?_⟩
  · rw [List.filter_append, runTry_create env tcid h1 h2 h3]
    have hto : (teardownActions env).filter isCreateAct = [] := by
      cases hcid : (runTry env).2.1 <;> simp [teardownActions, hcid, isCreateAct]
    rw [hto]
    simp [manimCmd]
  · cases hfc : findClassMatch env.code.data with
    | some w => left; simp [sceneClassName, hfc]
    | none => right; simp [sceneClassName, hfc]

/-- C7 witness: for a source defining DemoScene, the single create request
runs `manim -pql scene.py DemoScene` in the bound working area. -/
theorem container_command_shape_witness :
    executeCodeTool envHappy = Except.ok
      { trace := (runTry envHappy).1 ++ teardownActions envHappy,
        cleanupLogs := teardownLogs envHappy,
        message := toolResultMessage envHappy } ∧
    ((runTry envHappy).1 ++ teardownActions envHappy).filter isCreateAct =
      [DockerAction.createContainer "manimcommunity/manim:stable"
        ["manim", "-pql", "scene.py", "DemoScene"]
        ["/app/tmp/manim-executions/exec-2:/manim"] "/manim"] ∧
    ((findClassMatch envHappy.code.data = some "DemoScene") ∨
     (findClassMatch envHappy.code.data = none ∧ ("DemoScene" : String) = "Scene")) :=
  container_command_shape envHappy "call-2" rfl rfl rfl rfl

/-- C9: when the wait response carries no status code at all, or status code
zero, the JavaScript falsy-default `StatusCode || 0` makes the tool treat the
exit status as 0 and proceed to the artifact search; with an artifact present
it returns the success result. -/
theorem absent_status_code_treated_as_success (env : ExecEnv)
    (tcid cid logOutput vp : String)
    (h : env.dockerConnect = Except.ok ()) (h1 : env.toolCallId = some tcid)
    (h2 : env.mkdirResult = Except.ok ()) (h3 : env.writeResult = Except.ok ())
    (h4 : env.createResult = Except.ok cid) (h5 : env.startResult = Except.ok ())
    (h6 : env.waitStatusCode = Except.ok none ∨ env.waitStatusCode = Except.ok (some 0))
    (h7 : env.logsResult = Except.ok logOutput) (h8 : toolVideoPath env = some vp) :
    executeCodeTool env = Except.ok
      { trace := (runTry env).1 ++ teardownActions env,
        cleanupLogs := teardownLogs env,
        message := { content := "Manim code executed successfully. Video URL: "
                                 ++ ("/api/videos/" ++ env.executionId ++ "/"
                                     ++ jsVideoFileName vp)
                                 ++ "\n\nLogs:\n" ++ logOutput,
                     tool_call_id := tcid } } := by
  have hok : (runTry env).2.2 = Except.ok
      { content := "Manim code executed successfully. Video URL: "
                   ++ ("/api/videos/" ++ env.executionId ++ "/" ++ jsVideoFileName vp)
                   ++ "\n\nLogs:\n" ++ logOutput,
        tool_call_id := tcid } := by
    rcases h6 with h6 | h6 <;>
      simp [runTry, h1, h2, h3, h4, h5, h6, h7, h8, jsOrNat]
  have hmsg : toolResultMessage env =
      { content := "Manim code executed successfully. Video URL: "
                   ++ ("/api/videos/" ++ env.executionId ++ "/" ++ jsVideoFileName vp)
                   ++ "\n\nLogs:\n" ++ logOutput,
        tool_call_id := tcid } := by
    simp [toolResultMessage, hok]
  simp [executeCodeTool, h, hmsg]

/-- C9 witness: a wait response with an absent status code proceeds to the
artifact search and returns the success result for the artifact found two
directories deep. -/
theorem absent_status_code_witness :
    executeCodeTool envHappy = Except.ok
      { trace := (runTry envHappy).1 ++ teardownActions envHappy,
        cleanupLogs := teardownLogs envHappy,
        message := { content := "Manim code executed successfully. Video URL: "
                                 ++ ("/api/videos/" ++ envHappy.executionId ++ "/"
                                     ++ jsVideoFileName
                                       "/app/tmp/manim-executions/exec-2/media/videos/DemoScene/480p15/DemoScene.mp4")
                                 ++ "\n\nLogs:\n" ++ "render ok",
                     tool_call_id := "call-2" } } :=
  absent_status_code_treated_as_success envHappy "call-2" "cid-2" "render ok"
    "/app/tmp/manim-executions/exec-2/media/videos/DemoScene/480p15/DemoScene.mp4"
    rfl rfl rfl rfl rfl rfl (Or.inl rfl) rfl rfl

/-- C8: a retrieval request whose filename contains the traversal sequence
`../` fails the safe-character validation (the slash is outside the allowed
set) and is answered 400 before any filesystem access; and when a located
path does not resolve to a location under the execution directory, the route
answers 403 and never reads the file. -/
theorem video_route_validation_and_containment (w : VideoWorld) :
    (∀ pre post : List Char, w.filename.data = pre ++ ('.' :: '.' :: '/' :: post) →
      videoGET w = (400, [])) ∧
    (∀ (t : FsForest) (vp : String) (q : String),
      w.mediaTree = some t →
      validExecutionId w.executionId = true → validFilename w.filename = true →
      w.execDirExists = true →
      findForest (fun n => decide (n = w.filename)) (videoMediaDir w) t = some vp →
      jsStartsWith (w.resolve vp) (w.resolve (videoExecutionDir w)) = false →
      (videoGET w).1 = 403 ∧ VideoAct.readVideoFile q ∉ (videoGET w).2) := by
  constructor
  · intro pre post hdata
    have hslash : '/' ∈ w.filename.data := by
      rw [hdata]; simp
    have hvf : validFilename w.filename = false := by
      unfold validFilename
      have hall : w.filename.data.all
          (fun c => c.isAlphanum || c = '_' || c = '.' || c = '-') = false := by
        rw [List.all_eq_false]
        exact ⟨'/', hslash, by decide⟩
      simp [hall]
    have hcond : ¬ (validExecutionId w.executionId ∧ validFilename w.filename) := by
      intro hc
      rw [hvf] at hc
      exact Bool.false_ne_true hc.2
    simp [videoGET, hcond]
  · intro t vp q hmt hvi hvf hex hfind hstart
    constructor
    · simp [videoGET, hvi, hvf, hex, hmt, hfind, hstart]
    · simp [videoGET, hvi, hvf, hex, hmt, hfind, hstart]

/-- C8 witness: the filename `../secret.mp4` is rejected with 400 and an
empty access trace, and a found path resolving outside the execution
directory is answered 403 without a file read. -/
theorem video_route_witness :
    videoGET videoWorldTraversal = (400, []) ∧
    ((videoGET videoWorldEscape).1 = 403 ∧
      VideoAct.readVideoFile
          "/app/tmp/manim-executions/exec-9/media/videos/video.mp4"
        ∉ (videoGET videoWorldEscape).2) :=
  ⟨(video_route_validation_and_containment videoWorldTraversal).1 []
      ('s' :: 'e' :: 'c' :: 'r' :: 'e' :: 't' :: '.' :: 'm' :: 'p' :: '4' :: []) rfl,
   (video_route_validation_and_containment videoWorldEscape).2
      (FsForest.cons (FsEntry.file "video.mp4") FsForest.nil)
      "/app/tmp/manim-executions/exec-9/media/videos/video.mp4"
      "/app/tmp/manim-executions/exec-9/media/videos/video.mp4"
      rfl (by decide) (by decide) rfl (by decide) (by decide)⟩
